import Mathlib

/-!
# A shallow embedding of `merge_feeds.py`

This file models the feed-aggregation script `src/merge_feeds.py`: it reads a
YAML configuration, collects items from external podcast RSS feeds and from
YouTube channels (downloading audio files as a side effect), merges the items,
sorts them by publication date descending, trims to a global cap and emits an
RSS document.

Python strings are modelled as Lean `String`, Python `None`-able values as
`Option`, the filesystem and the downloader as explicit environments, and
`datetime` objects as a pair of an epoch instant and an awareness flag.
All definitions are translated from the source; the few places where a Python
idiom needs unfolding (falsy `or`, `str.strip`, `re.sub`) are noted inline.
-/

namespace MergeFeeds

/-! ## Python string primitives

Structural-recursion implementations of the Python string operations the
script uses, over the underlying character lists. -/

/-- Python `s.lower()` (the script only ever feeds ASCII through it). -/
def pyLower (s : String) : String := ⟨s.data.map Char.toLower⟩

/-- Python `s.startswith(p)`. -/
def pyStartsWith (p s : String) : Bool := p.data.isPrefixOf s.data

/-- Python `s.endswith(p)`. -/
def pyEndsWith (p s : String) : Bool := p.data.reverse.isPrefixOf s.data.reverse

/-- Python `s.split(sep)` for a one-character separator: keeps empty pieces,
and `"".split(sep) == ['']`. -/
def splitOnChar (sep : Char) : List Char → List (List Char)
  | [] => [[]]
  | c :: rest =>
    if c = sep then [] :: splitOnChar sep rest
    else
      match splitOnChar sep rest with
      | [] => [[c]]
      | g :: gs => (c :: g) :: gs

/-- Strip characters satisfying `p` from both ends of a character list
(Python `str.strip`). -/
def stripWhile (p : Char → Bool) (cs : List Char) : List Char :=
  ((cs.dropWhile p).reverse.dropWhile p).reverse

/-- The whitespace characters stripped by Python `str.strip()` (ASCII part). -/
def isPyWhitespace (c : Char) : Bool :=
  c = ' ' || c = '\t' || c = '\n' || c = '\r' || c = Char.ofNat 11 || c = Char.ofNat 12

/-- Python falsy-`or` on an optional string: `a or b` where both a missing
value (`None`) and the empty string are falsy. -/
def orStr (a : Option String) (b : String) : String :=
  match a with
  | some s => if s.isEmpty then b else s
  | none => b

/-! ## Audio-enclosure detection (`is_audio_enclosure`, `pick_audio_enclosure`) -/

/-- A feedparser link dictionary; the script reads its `href`, `type` and
`length` keys, any of which may be absent. `ltype` stands for the `type` key. -/
structure Link where
  href : Option String
  ltype : Option String
  length : Option String
deriving DecidableEq

/-- `is_audio_enclosure` from the source: lowercase `href` and `type`
(defaulting to `''`), then test the type for the `audio/` head or the href
for a known audio extension.  The Python guard `if not link: return False`
(for an empty dict) is subsumed: an empty link has no `href` and no `type`,
and the tests below all fail on `''`. -/
def is_audio_enclosure (link : Link) : Bool :=
  let href := pyLower (link.href.getD "")
  let ltype := pyLower (link.ltype.getD "")
  pyStartsWith "audio/" ltype
    || pyEndsWith ".mp3" href
    || pyEndsWith ".m4a" href
    || pyEndsWith ".aac" href
    || pyEndsWith ".ogg" href

/-- `pick_audio_enclosure`: the first audio enclosure in the list, else none. -/
def pick_audio_enclosure (links : List Link) : Option Link :=
  links.find? is_audio_enclosure

/-! ## Slug derivation (`slugify`) -/

/-- The characters the `slugify` regular expression `[^0-9a-z]+` keeps. -/
def isSlugChar (c : Char) : Bool :=
  ('0' ≤ c && c ≤ '9') || ('a' ≤ c && c ≤ 'z')

/-- `re.sub(r'[^0-9a-z]+', '-', text)`: replace every maximal run of
non-slug characters by a single `'-'`.  The `inRun` flag records whether the
previous character was part of such a run. -/
def collapseAux : Bool → List Char → List Char
  | _, [] => []
  | inRun, c :: cs =>
    if isSlugChar c then c :: collapseAux false cs
    else if inRun then collapseAux true cs
    else '-' :: collapseAux true cs

/-- `re.sub(r'[^0-9a-z]+', '-', ·)` on a character list. -/
def collapseNonAlnum (cs : List Char) : List Char := collapseAux false cs

/-- `slugify` from the source: strip whitespace, lowercase, collapse non
alphanumeric runs to hyphens, strip hyphens, and fall back to the literal
`'channel'` when the result is empty (`text.strip('-') or 'channel'`). -/
def slugify (text : String) : String :=
  let t := stripWhile (· = '-')
    (collapseNonAlnum ((stripWhile isPyWhitespace text.data).map Char.toLower))
  if t.isEmpty then "channel" else ⟨t⟩

/-- `channel_url.split('/')[-1]`. -/
def lastUrlSegment (url : String) : String :=
  ⟨(splitOnChar '/' url.data).getLastD []⟩

/-- The slug the script derives for a channel: `slugify(channel_url.split('/')[-1])`. -/
def channelSlug (channel_url : String) : String :=
  slugify (lastUrlSegment channel_url)

/-! ## SHA-1 (`hashlib.sha1(...).hexdigest()`)

A direct implementation over byte lists, so that the guid derivation below is
the full function from the source and not an abstraction. -/

/-- UTF-8 encoding of one code point, as bytes. -/
def utf8Encode (c : Nat) : List Nat :=
  if c < 128 then [c]
  else if c < 2048 then [192 + c / 64, 128 + c % 64]
  else if c < 65536 then [224 + c / 4096, 128 + c / 64 % 64, 128 + c % 64]
  else [240 + c / 262144, 128 + c / 4096 % 64, 128 + c / 64 % 64, 128 + c % 64]

/-- `s.encode('utf-8')` as a list of byte values. -/
def strBytes (s : String) : List Nat :=
  (s.data.map (fun ch => utf8Encode ch.toNat)).flatten

/-- SHA-1 padding: `0x80`, zero bytes to 56 mod 64, then the 64-bit
big-endian bit length. -/
def sha1pad (m : List Nat) : List Nat :=
  let L := m.length
  let z := (119 - (L % 64)) % 64
  m ++ [128] ++ List.replicate z 0
    ++ (List.range 8).map (fun i => ((8 * L) >>> ((7 - i) * 8)) % 256)

/-- Big-endian 32-bit words from bytes. -/
def bytesToWords : List Nat → List Nat
  | b0 :: b1 :: b2 :: b3 :: rest =>
    (((b0 * 256 + b1) * 256 + b2) * 256 + b3) :: bytesToWords rest
  | _ => []

/-- Split a word list into 16-word blocks. -/
def toBlocks (ws : List Nat) : List (List Nat) :=
  match ws with
  | [] => []
  | w :: rest => (w :: rest).take 16 :: toBlocks (rest.drop 15)
termination_by ws.length
decreasing_by simp [List.length_drop]; omega

/-- Rotate a 32-bit word left by `n`. -/
def rotl32 (n x : Nat) : Nat :=
  ((x <<< n) ||| (x >>> (32 - n))) % 4294967296

/-- The SHA-1 round function. -/
def sha1f (t b c d : Nat) : Nat :=
  if t < 20 then (b &&& c) ||| ((b ^^^ 4294967295) &&& d)
  else if t < 40 then b ^^^ c ^^^ d
  else if t < 60 then (b &&& c) ||| (b &&& d) ||| (c &&& d)
  else b ^^^ c ^^^ d

/-- The SHA-1 round constants. -/
def sha1k (t : Nat) : Nat :=
  if t < 20 then 1518500249
  else if t < 40 then 1859775393
  else if t < 60 then 2400959708
  else 3395469782

/-- Message-schedule expansion of one 16-word block to 80 words. -/
def sha1schedule (block : List Nat) : List Nat :=
  (List.range 64).foldl
    (fun w _ =>
      let n := w.length
      w ++ [rotl32 1 (w.getD (n - 3) 0 ^^^ w.getD (n - 8) 0
        ^^^ w.getD (n - 14) 0 ^^^ w.getD (n - 16) 0)])
    block

/-- Process one block against the running state of five 32-bit words. -/
def sha1block (h : List Nat) (block : List Nat) : List Nat :=
  let ws := sha1schedule block
  let s := ws.enum.foldl
    (fun s tw =>
      match s, tw with
      | (a, b, c, d, e), (t, w) =>
        let temp := (rotl32 5 a + sha1f t b c d + e + sha1k t + w) % 4294967296
        (temp, a, rotl32 30 b, c, d))
    (h.getD 0 0, h.getD 1 0, h.getD 2 0, h.getD 3 0, h.getD 4 0)
  match s with
  | (a, b, c, d, e) =>
    [(h.getD 0 0 + a) % 4294967296, (h.getD 1 0 + b) % 4294967296,
     (h.getD 2 0 + c) % 4294967296, (h.getD 3 0 + d) % 4294967296,
     (h.getD 4 0 + e) % 4294967296]

/-- One lowercase hexadecimal digit. -/
def hexDigit (n : Nat) : Char :=
  if n < 10 then Char.ofNat (48 + n) else Char.ofNat (87 + n)

/-- Eight hex digits of a 32-bit word, big-endian. -/
def word8hex (w : Nat) : List Char :=
  (List.range 8).map (fun i => hexDigit ((w >>> ((7 - i) * 4)) % 16))

/-- `hashlib.sha1(s.encode('utf-8')).hexdigest()`. -/
def sha1hex (s : String) : String :=
  let blocks := toBlocks (bytesToWords (sha1pad (strBytes s)))
  let h := blocks.foldl sha1block
    [1732584193, 4023233417, 2562383102, 271733878, 3285377520]
  ⟨(h.map word8hex).flatten⟩

/-! ## Guid derivation -/

/-- The string hashed for a podcast item's guid: `f"podcast-{guid_source}"`. -/
def podcastGuidInput (guid_source : String) : String := "podcast-" ++ guid_source

/-- The string hashed for a channel item's guid: `f'youtube-{video_id}'`.
Note the channel slug is not part of it. -/
def youtubeGuidInput (video_id : String) : String := "youtube-" ++ video_id

/-- Guid of a podcast-derived item. -/
def podcastGuid (guid_source : String) : String := sha1hex (podcastGuidInput guid_source)

/-- Guid of a channel-derived item. -/
def youtubeGuid (video_id : String) : String := sha1hex (youtubeGuidInput video_id)

/-! ## Datetimes

A Python `datetime` is modelled by the epoch instant it denotes together with
its awareness flag (`tzinfo` present or not).  For a naive datetime the
`instant` field is the wall-clock reading as an epoch value; `pytz`'s
`localize` attaches the timezone, shifting by the zone's UTC offset. -/

structure PyDatetime where
  instant : Int
  aware : Bool
deriving DecidableEq

/-- `datetime.datetime.fromtimestamp(ts, timezone)`: timezone-aware. -/
def fromtimestampTz (ts : Int) : PyDatetime := ⟨ts, true⟩

/-- `datetime.datetime.now(timezone)`: timezone-aware. -/
def nowTz (now : Int) : PyDatetime := ⟨now, true⟩

/-- `timezone.localize(dt)`: interpret a naive wall-clock datetime in a zone
with the given UTC offset (seconds), producing an aware datetime. -/
def localize (tzOffset : Int) (d : PyDatetime) : PyDatetime :=
  ⟨d.instant - tzOffset, true⟩

/-- Days since the Unix epoch of a civil date (proleptic Gregorian). -/
def daysFromCivil (y m d : Int) : Int :=
  let y := if m ≤ 2 then y - 1 else y
  let era := (if 0 ≤ y then y else y - 399) / 400
  let yoe := y - era * 400
  let mp := (m + 9) % 12
  let doy := (153 * mp + 2) / 5 + d - 1
  let doe := yoe * 365 + yoe / 4 - yoe / 100 + doy
  era * 146097 + doe - 719468

/-- Days in a month of the proleptic Gregorian calendar. -/
def daysInMonth (y m : Nat) : Nat :=
  if m = 2 then
    if y % 4 = 0 && (y % 100 ≠ 0 || y % 400 = 0) then 29 else 28
  else if m = 4 || m = 6 || m = 9 || m = 11 then 30
  else 31

/-- `datetime.datetime.strptime(s, '%Y%m%d')`: parse an 8-digit compact date,
returning a naive datetime at midnight, or nothing when the text does not
denote a valid calendar date (Python raises `ValueError`). -/
def strptimeYmd (s : String) : Option PyDatetime :=
  match s.data with
  | [y3, y2, y1, y0, m1, m0, d1, d0] =>
    if (s.data.all Char.isDigit) then
      let y := ((y3.toNat - 48) * 10 + (y2.toNat - 48)) * 100
        + (y1.toNat - 48) * 10 + (y0.toNat - 48)
      let m := (m1.toNat - 48) * 10 + m0.toNat - 48
      let d := (d1.toNat - 48) * 10 + d0.toNat - 48
      if 1 ≤ m && m ≤ 12 && 1 ≤ d && d ≤ daysInMonth y m then
        some ⟨daysFromCivil y m d * 86400, false⟩
      else none
    else none
  | _ => none

/-- Publication date of a podcast entry (lines 119-125 of the source):
`published_parsed`, else `updated_parsed`, else now — all three paths aware.
The optional `Int`s stand for `time.mktime` of the parsed time structs. -/
def podcastPubdate (published updated : Option Int) (now : Int) : PyDatetime :=
  match published with
  | some ts => fromtimestampTz ts
  | none =>
    match updated with
    | some ts => fromtimestampTz ts
    | none => nowTz now

/-- Publication date of a channel video (lines 192-201 of the source): an
8-character `upload_date` is parsed with `strptime` and localized; a parse
failure, a wrong length or an absent date fall back to now. -/
def channelPubdate (upload_date : Option String) (tzOffset : Int) (now : Int) : PyDatetime :=
  match upload_date with
  | none => nowTz now
  | some s =>
    if !s.isEmpty && s.length = 8 then
      match strptimeYmd s with
      | some dt => localize tzOffset dt
      | none => nowTz now
    else nowTz now

/-- Python comparison of two datetimes: comparing a naive with an aware
datetime raises `TypeError` (modelled as `none`); otherwise aware datetimes
compare by UTC instant and naive ones by wall-clock reading. -/
def pyCompare (a b : PyDatetime) : Option Ordering :=
  if a.aware = b.aware then some (compare a.instant b.instant) else none

/-! ## Item records -/

/-- The common item record appended to the `items` list (lines 128-136 and
241-249 of the source).  `enclosure_url` keeps the optionality of
`enc.get('href')`. -/
structure Item where
  title : String
  link : String
  enclosure_url : Option String
  enclosure_type : String
  enclosure_length : String
  pubdate : PyDatetime
  guid : String
deriving DecidableEq

/-! ## Podcast collection -/

/-- A feedparser entry, with the attributes the script reads.  `published`
and `updated` stand for `time.mktime(entry.published_parsed)` and
`time.mktime(entry.updated_parsed)` when those attributes are present and
truthy. -/
structure PodcastEntry where
  title : Option String
  link : Option String
  id : Option String
  links : List Link
  published : Option Int
  updated : Option Int
deriving DecidableEq

/-- One iteration of the podcast entry loop (lines 115-136): pick the first
audio enclosure (no enclosure means the entry is skipped), resolve the
publication date, build the guid from
`getattr(entry,'id','') or getattr(entry,'link','') or enc.get('href','')`,
and assemble the item record. -/
def podcastItem (feed_url : String) (now : Int) (e : PodcastEntry) : Option Item :=
  match pick_audio_enclosure e.links with
  | none => none
  | some enc =>
    let dt := podcastPubdate e.published e.updated now
    let guid_source := orStr e.id (orStr e.link (enc.href.getD ""))
    some
      { title := e.title.getD "Untitled"
        link := e.link.getD feed_url
        enclosure_url := enc.href
        enclosure_type := orStr enc.ltype "audio/mpeg"
        enclosure_length := orStr enc.length "0"
        pubdate := dt
        guid := podcastGuid guid_source }

/-- The `count`-controlled loop over one feed's entries (lines 114-139):
entries without an audio enclosure are skipped without counting; after an
item is appended the counter is incremented and the loop breaks as soon as
`count >= max_items_per_source`. -/
def collectPodcast (feed_url : String) (now : Int) (cap : Nat) :
    List PodcastEntry → Nat → List Item
  | [], _ => []
  | e :: rest, count =>
    match podcastItem feed_url now e with
    | none => collectPodcast feed_url now cap rest count
    | some it =>
      if count + 1 ≥ cap then [it]
      else it :: collectPodcast feed_url now cap rest (count + 1)

/-- All items one podcast feed contributes. -/
def podcastItems (feed_url : String) (now : Int) (cap : Nat)
    (entries : List PodcastEntry) : List Item :=
  collectPodcast feed_url now cap entries 0

/-! ## Configuration and feed-level metadata -/

/-- A YAML value as far as the channel-entry handling needs it: a plain
string or a mapping. -/
inductive Yaml where
  | str : String → Yaml
  | map : List (String × Yaml) → Yaml

/-- A Python exception surfacing from the embedded code. -/
inductive PyError where
  | attributeError : String → PyError
deriving DecidableEq

/-- Python `value.get(key)`: defined for a dict, but an `AttributeError` for
a plain string (`'str' object has no attribute 'get'`). -/
def pyGet (v : Yaml) (key : String) : Except PyError (Option Yaml) :=
  match v with
  | .map kvs => .ok (kvs.lookup key)
  | .str _ => .error (.attributeError "get")

/-- `channel_cfg.get('url')` (line 149 of the source), the first touch of a
`youtube_channels` entry. -/
def channelEntryUrl (channel_cfg : Yaml) : Except PyError (Option Yaml) :=
  pyGet channel_cfg "url"

/-- The configuration mapping `sources.yml`, with the keys the script reads.
A YAML mapping may also carry a `language` key; the script never consults
it, but it is modelled so that the feed-metadata mapping can be stated. -/
structure Config where
  title : Option String
  link : Option String
  description : Option String
  language : Option String
  timezone : Option String
  max_items_per_source : Option Nat
  max_total_items : Option Nat
  max_videos_per_channel : Option Nat
  podcasts : List String
  youtube_channels : List Yaml

/-- Feed-level metadata of the emitted document. -/
structure FeedMeta where
  title : String
  link : String
  description : String
  language : String
deriving DecidableEq

/-- Lines 96-99 of the source: `fg.title(cfg.get('title', 'Aggregated Feed'))`,
`fg.link(href=cfg.get('link', ''))`, `fg.description(cfg.get('description', ''))`,
`fg.language('zh-CN')`.  The language is the literal `'zh-CN'`. -/
def feedMeta (cfg : Config) : FeedMeta :=
  { title := cfg.title.getD "Aggregated Feed"
    link := cfg.link.getD ""
    description := cfg.description.getD ""
    language := "zh-CN" }

/-! ## Channel collection -/

/-- A flat video entry as returned by the listing step, with the keys the
script reads. -/
structure VideoEntry where
  id : Option String
  title : Option String
  upload_date : Option String
deriving DecidableEq

/-- A raw listing entry: either a video or a nested playlist whose member
list may contain `None`s. -/
inductive YtEntry where
  | video : VideoEntry → YtEntry
  | playlist : List (Option VideoEntry) → YtEntry

/-- Lines 174-182 of the source: skip `None` entries and flatten one level of
nested playlists, keeping only non-`None` members. -/
def flattenEntries : List (Option YtEntry) → List VideoEntry
  | [] => []
  | none :: rest => flattenEntries rest
  | some (.video v) :: rest => v :: flattenEntries rest
  | some (.playlist vs) :: rest => vs.reduceOption ++ flattenEntries rest

/-- The per-channel environment: the filesystem and downloader state the
video loop observes.  `fileExists` is `os.path.exists` at the start of the
video's iteration, `fileSize` is `os.path.getsize`, `downloadOk vid` says
whether an attempted download leaves the file in place, and `archive` holds
the download-archive lines (`none` when the file is absent or unreadable). -/
structure ChannelEnv where
  fileExists : String → Bool
  fileSize : String → Nat
  downloadOk : String → Bool
  archive : Option (List String)
  now : Int
  tzOffset : Int

/-- `os.path.join('youtube_audio', slug, video_id + '.mp3')` as built on
lines 155 and 203. -/
def outfilePath (slug video_id : String) : String :=
  "youtube_audio/" ++ slug ++ "/" ++ video_id ++ ".mp3"

/-- Line 204: the raw-hosting URL for the local file. -/
def rawUrl (outfile : String) : String :=
  "https://raw.githubusercontent.com/LLNA3312/my-rss-feed/main/" ++ outfile

/-- Lines 206-213: `need_download = not os.path.exists(outfile)`, then set to
`False` when the archive file exists and lists the video id. -/
def need_download (fileExistsBefore : Bool) (archive : Option (List String))
    (video_id : String) : Bool :=
  match archive with
  | some lines => if lines.contains video_id then false else !fileExistsBefore
  | none => !fileExistsBefore

/-- Whether the loop body reaches the download call (line 214) for an entry:
only when the entry has a truthy id and `need_download` holds. -/
def downloadAttempted (slug : String) (env : ChannelEnv) (e : VideoEntry) : Bool :=
  match e.id with
  | none => false
  | some video_id =>
    !video_id.isEmpty
      && need_download (env.fileExists (outfilePath slug video_id)) env.archive video_id

/-- Whether the local file exists when line 234 re-checks it: it was there
before, or a download was attempted and succeeded. -/
def fileExistsAfter (slug : String) (env : ChannelEnv) (video_id : String) : Bool :=
  env.fileExists (outfilePath slug video_id)
    || (need_download (env.fileExists (outfilePath slug video_id)) env.archive video_id
        && env.downloadOk video_id)

/-- One iteration of the channel video loop (lines 187-249): skip entries
without a truthy id; resolve title, date, paths; maybe download; measure the
file (`'0'` when absent); and append the item record — unconditionally. -/
def channelVideoItem (slug : String) (env : ChannelEnv) (e : VideoEntry) : Option Item :=
  match e.id with
  | none => none
  | some video_id =>
    if video_id.isEmpty then none
    else
      let outfile := outfilePath slug video_id
      let length := if fileExistsAfter slug env video_id
        then toString (env.fileSize outfile) else "0"
      some
        { title := orStr e.title ("YouTube Video " ++ video_id)
          link := "https://www.youtube.com/watch?v=" ++ video_id
          enclosure_url := some (rawUrl outfile)
          enclosure_type := "audio/mpeg"
          enclosure_length := length
          pubdate := channelPubdate e.upload_date env.tzOffset env.now
          guid := youtubeGuid video_id }

/-- The `channel_count`-controlled loop (lines 186-252), returning the items
appended and the number of download attempts made.  Entries without an id
are skipped before the download step; after an item is appended the counter
is incremented and the loop breaks when `channel_count >= max_items_per_source`. -/
def collectChannel (slug : String) (env : ChannelEnv) (cap : Nat) :
    List VideoEntry → Nat → List Item × Nat
  | [], _ => ([], 0)
  | e :: rest, count =>
    match channelVideoItem slug env e with
    | none => collectChannel slug env cap rest count
    | some it =>
      let d := if downloadAttempted slug env e then 1 else 0
      if count + 1 ≥ cap then ([it], d)
      else
        let r := collectChannel slug env cap rest (count + 1)
        (it :: r.1, d + r.2)

/-- Items one channel contributes: the flattened entry list is first cut to
`max_videos` (line 184), then run through the counted loop. -/
def channelItems (slug : String) (env : ChannelEnv) (maxVideos cap : Nat)
    (entries : List VideoEntry) : List Item :=
  (collectChannel slug env cap (entries.take maxVideos) 0).1

/-- Download attempts one channel makes. -/
def channelDownloadCount (slug : String) (env : ChannelEnv) (maxVideos cap : Nat)
    (entries : List VideoEntry) : Nat :=
  (collectChannel slug env cap (entries.take maxVideos) 0).2

/-! ## Merge, rank, trim (lines 254-257) -/

/-- The descending comparison used by
`items.sort(key=lambda x: x['pubdate'], reverse=True)`: for the
timezone-aware datetimes the collectors produce, Python compares UTC
instants, and `reverse=True` flips the comparison while keeping the sort
stable. -/
def pubLE (a b : Item) : Bool := decide (b.pubdate.instant ≤ a.pubdate.instant)

/-- Sort all items by publication date descending (stable) and trim to
`max_total_items`. -/
def mergeTrim (items : List Item) (maxTotal : Nat) : List Item :=
  (items.mergeSort pubLE).take maxTotal

/-! ## Sample values used by concrete instantiations -/

/-- A channel environment with nothing on disk, no archive file, and every
download attempt failing. -/
def noFileEnv : ChannelEnv :=
  { fileExists := fun _ => false
    fileSize := fun _ => 0
    downloadOk := fun _ => false
    archive := none
    now := 0
    tzOffset := 0 }

/-- A channel environment whose archive already records `vid01`. -/
def archivedEnv : ChannelEnv :=
  { fileExists := fun _ => false
    fileSize := fun _ => 0
    downloadOk := fun _ => true
    archive := some ["vid01"]
    now := 0
    tzOffset := 0 }

/-- A podcast entry with one audio link. -/
def audioEntry : PodcastEntry :=
  { title := some "ep"
    link := some "https://example.org/ep"
    id := some "ep-1"
    links := [⟨some "https://example.org/ep.mp3", some "audio/mpeg", some "123"⟩]
    published := some 100
    updated := none }

/-- A configuration carrying every key, including a `language` the script
never reads. -/
def sampleCfg : Config :=
  { title := some "My Feed"
    link := some "https://example.org"
    description := some "desc"
    language := some "en-US"
    timezone := some "UTC"
    max_items_per_source := some 10
    max_total_items := some 100
    max_videos_per_channel := some 3
    podcasts := []
    youtube_channels := [] }

/-- An item with publication instant 5. -/
def itemA : Item :=
  { title := "A", link := "a", enclosure_url := none, enclosure_type := "audio/mpeg"
    enclosure_length := "0", pubdate := ⟨5, true⟩, guid := "ga" }

/-- A second item with the same publication instant as `itemA`. -/
def itemB : Item :=
  { title := "B", link := "b", enclosure_url := none, enclosure_type := "audio/mpeg"
    enclosure_length := "0", pubdate := ⟨5, true⟩, guid := "gb" }

/-! ## Helper lemmas -/

theorem podcastPubdate_aware (p u : Option Int) (n : Int) :
    (podcastPubdate p u n).aware = true := by
  cases p <;> cases u <;> rfl

theorem channelPubdate_aware (s : Option String) (tz n : Int) :
    (channelPubdate s tz n).aware = true := by
  cases s with
  | none => rfl
  | some s =>
    simp only [channelPubdate]
    split
    · cases strptimeYmd s <;> rfl
    · rfl

/-! ## Claim C1 — emission of channel items vs. file existence -/

/-- C1, counterexample: with nothing on disk and a failing download, the
video loop still emits an item, and its `enclosure_url` is the raw-hosting
URL of the absent file — the item is not dropped. -/
theorem C1_item_emitted_without_file :
    fileExistsAfter "chan" noFileEnv "vid01" = false
    ∧ (channelVideoItem "chan" noFileEnv ⟨some "vid01", none, none⟩).isSome = true
    ∧ (channelVideoItem "chan" noFileEnv ⟨some "vid01", none, none⟩).map Item.enclosure_url
        = some (some (rawUrl (outfilePath "chan" "vid01"))) :=
  ⟨rfl, rfl, rfl⟩

/-- C1, amended: for every channel video entry with a truthy id an item
record is emitted whether or not the local file exists after the
materialization step; its `enclosure_url` always points at the raw-hosting
URL of the expected path, and when the file is absent the
`enclosure_length` is `"0"`. -/
theorem C1_channel_item_emitted_unconditionally (slug : String) (env : ChannelEnv)
    (e : VideoEntry) (video_id : String) (hid : e.id = some video_id)
    (hne : video_id.isEmpty = false) :
    (channelVideoItem slug env e).isSome = true
    ∧ (channelVideoItem slug env e).map Item.enclosure_url
        = some (some (rawUrl (outfilePath slug video_id)))
    ∧ (fileExistsAfter slug env video_id = false →
        (channelVideoItem slug env e).map Item.enclosure_length = some "0") := by
  rcases e with ⟨eid, t, u⟩
  simp only at hid
  subst hid
  refine ⟨?_, ?_, fun h => ?_⟩
  · simp [channelVideoItem, hne]
  · simp [channelVideoItem, hne]
  · simp [channelVideoItem, hne, h]

/-- C1, witness for the amended theorem at a concrete entry and environment. -/
theorem C1_channel_item_emitted_unconditionally_witness :
    (VideoEntry.mk (some "vid01") none none).id = some "vid01"
    ∧ "vid01".isEmpty = false
    ∧ (channelVideoItem "chan" noFileEnv ⟨some "vid01", none, none⟩).isSome = true :=
  ⟨rfl, rfl,
    (C1_channel_item_emitted_unconditionally "chan" noFileEnv ⟨some "vid01", none, none⟩
      "vid01" rfl rfl).1⟩

/-! ## Claim C2 — guid derivation for channel items -/

/-- C2, counterexample: the hashed string is `youtube-` plus the video id
only; two channel configurations with different slugs and the same video id
produce the same guid. -/
theorem C2_equal_guids_across_slugs :
    ("chana" : String) ≠ "chanb"
    ∧ (channelVideoItem "chana" noFileEnv ⟨some "vidx", none, none⟩).map Item.guid
        = (channelVideoItem "chanb" noFileEnv ⟨some "vidx", none, none⟩).map Item.guid
    ∧ (channelVideoItem "chana" noFileEnv ⟨some "vidx", none, none⟩).map Item.guid
        = some (youtubeGuid "vidx") :=
  ⟨by decide, rfl, rfl⟩

/-- C2, amended: a channel item's guid is the SHA-1 of `youtube-` plus the
video id, with the channel slug playing no part (so identical video ids
across different channel configurations yield equal guids); the hashed
strings are injective in the video id and never collide with the
`podcast-`-namespaced ones, and the same video id always hashes to the same
guid. -/
theorem C2_guid_from_video_id :
    (∀ slug env e video_id, e.id = some video_id → video_id.isEmpty = false →
        (channelVideoItem slug env e).map Item.guid = some (youtubeGuid video_id))
    ∧ (∀ video_id, youtubeGuid video_id = sha1hex (youtubeGuidInput video_id))
    ∧ (∀ v w, youtubeGuidInput v = youtubeGuidInput w → v = w)
    ∧ (∀ s v, podcastGuidInput s ≠ youtubeGuidInput v) := by
  refine ⟨?_, fun _ => rfl, ?_, ?_⟩
  · intro slug env e video_id hid hne
    rcases e with ⟨eid, t, u⟩
    simp only at hid
    subst hid
    simp [channelVideoItem, hne]
  · intro v w h
    have h2 : v.data = w.data := congrArg (fun t : String => t.data.drop 8) h
    cases v; cases w; cases h2; rfl
  · intro s v h
    have h2 : (some 'p' : Option Char) = some 'y' :=
      congrArg (fun t : String => t.data.head?) h
    exact absurd h2 (by decide)

/-- C2, witness for the amended theorem at a concrete entry. -/
theorem C2_guid_from_video_id_witness :
    (VideoEntry.mk (some "vidx") none none).id = some "vidx"
    ∧ "vidx".isEmpty = false
    ∧ (channelVideoItem "slug-one" noFileEnv ⟨some "vidx", none, none⟩).map Item.guid
        = some (youtubeGuid "vidx") :=
  ⟨rfl, rfl,
    C2_guid_from_video_id.1 "slug-one" noFileEnv ⟨some "vidx", none, none⟩ "vidx" rfl rfl⟩

/-! ## Claim C5 — idempotent download short-circuit -/

theorem collectChannel_downloads_zero (slug : String) (env : ChannelEnv) (cap : Nat)
    (lines : List String) (ha : env.archive = some lines)
    (l : List VideoEntry) (count : Nat)
    (h : ∀ e ∈ l, ∀ video_id, e.id = some video_id → video_id ∈ lines) :
    (collectChannel slug env cap l count).2 = 0 := by
  induction l generalizing count with
  | nil => rfl
  | cons e rest ih =>
    have hrest : ∀ x ∈ rest, ∀ video_id, x.id = some video_id → video_id ∈ lines :=
      fun x hx => h x (List.mem_cons_of_mem _ hx)
    simp only [collectChannel]
    cases hit : channelVideoItem slug env e with
    | none => exact ih count hrest
    | some it =>
      have hd : downloadAttempted slug env e = false := by
        rcases e with ⟨eid, t, u⟩
        cases eid with
        | none => rfl
        | some video_id =>
          have hmem : video_id ∈ lines := h _ (List.mem_cons_self _ _) video_id rfl
          simp [downloadAttempted, need_download, ha, hmem]
      rw [hd]
      by_cases hc : count + 1 ≥ cap
      · simp [hc]
      · simp [hc, ih (count + 1) hrest]

/-- C5: if the expected local file already exists, or the video id is
recorded in the channel's download archive, no download is attempted for
that video; and a run over entries whose ids are all recorded in the archive
performs zero downloads. -/
theorem C5_idempotent_short_circuit :
    (∀ slug env (e : VideoEntry) video_id, e.id = some video_id →
        (env.fileExists (outfilePath slug video_id) = true
          ∨ ∃ lines, env.archive = some lines ∧ video_id ∈ lines) →
        downloadAttempted slug env e = false)
    ∧ (∀ slug env cap maxVideos entries lines, env.archive = some lines →
        (∀ e ∈ entries, ∀ video_id, e.id = some video_id → video_id ∈ lines) →
        channelDownloadCount slug env maxVideos cap entries = 0) := by
  constructor
  · intro slug env e video_id hid hor
    rcases e with ⟨eid, t, u⟩
    simp only at hid
    subst hid
    rcases hor with hf | ⟨lines, ha, hmem⟩
    · cases ha : env.archive with
      | none => simp [downloadAttempted, need_download, ha, hf]
      | some lines => simp [downloadAttempted, need_download, ha, hf]
    · simp [downloadAttempted, need_download, ha, hmem]
  · intro slug env cap maxVideos entries lines ha h
    exact collectChannel_downloads_zero slug env cap lines ha _ 0
      (fun e he => h e (List.mem_of_mem_take he))

/-- C5, witness: a video whose id sits in the archive triggers no download. -/
theorem C5_idempotent_short_circuit_witness :
    (VideoEntry.mk (some "vid01") none none).id = some "vid01"
    ∧ (archivedEnv.fileExists (outfilePath "chan" "vid01") = true
        ∨ ∃ lines, archivedEnv.archive = some lines ∧ "vid01" ∈ lines)
    ∧ downloadAttempted "chan" archivedEnv ⟨some "vid01", none, none⟩ = false :=
  ⟨rfl, Or.inr ⟨["vid01"], rfl, by decide⟩,
    C5_idempotent_short_circuit.1 "chan" archivedEnv ⟨some "vid01", none, none⟩ "vid01"
      rfl (Or.inr ⟨["vid01"], rfl, by decide⟩)⟩

/-! ## Claim C7 — feed-level metadata -/

/-- C7, counterexample: the feed language is the literal `zh-CN`; a
configured `language` key is ignored. -/
theorem C7_language_hardcoded :
    sampleCfg.language = some "en-US"
    ∧ (feedMeta sampleCfg).language = "zh-CN"
    ∧ (feedMeta sampleCfg).language ≠ "en-US" :=
  ⟨rfl, rfl, by decide⟩

/-- C7, amended: feed title, link and description are taken from the
configuration (with their documented defaults), while the language is the
hardcoded constant `zh-CN`, identical for all configurations. -/
theorem C7_feed_meta_mapping :
    (∀ cfg t, cfg.title = some t → (feedMeta cfg).title = t)
    ∧ (∀ cfg l, cfg.link = some l → (feedMeta cfg).link = l)
    ∧ (∀ cfg d, cfg.description = some d → (feedMeta cfg).description = d)
    ∧ (∀ cfg cfg' : Config, (feedMeta cfg).language = (feedMeta cfg').language) := by
  refine ⟨?_, ?_, ?_, ?_⟩ <;> intros <;> simp_all [feedMeta]

/-- C7, witness for the amended theorem at the sample configuration. -/
theorem C7_feed_meta_mapping_witness :
    sampleCfg.title = some "My Feed" ∧ (feedMeta sampleCfg).title = "My Feed" :=
  ⟨rfl, C7_feed_meta_mapping.1 sampleCfg "My Feed" rfl⟩

/-! ## Claim C8 — plain-URL channel entries -/

/-- C8: reading the `url` key of a `youtube_channels` entry succeeds for a
mapping but raises `AttributeError` for a plain URL string — the very first
touch of a string entry fails, so such an entry is never processed. -/
theorem C8_plain_url_entry_raises :
    channelEntryUrl (Yaml.str "https://www.youtube.com/@somechannel")
      = Except.error (PyError.attributeError "get")
    ∧ channelEntryUrl (Yaml.map [("url", Yaml.str "https://www.youtube.com/@somechannel")])
      = Except.ok (some (Yaml.str "https://www.youtube.com/@somechannel")) :=
  ⟨rfl, rfl⟩

/-! ## Claim C10 — timezone awareness of publication dates -/

/-- C10: every item either collector emits carries a timezone-aware
publication date, and comparing two aware datetimes is always defined (a
naive/aware mix would raise `TypeError`). -/
theorem C10_pubdates_aware :
    (∀ feed_url now e it, podcastItem feed_url now e = some it →
        it.pubdate.aware = true)
    ∧ (∀ slug env e it, channelVideoItem slug env e = some it →
        it.pubdate.aware = true)
    ∧ (∀ a b : PyDatetime, a.aware = true → b.aware = true →
        (pyCompare a b).isSome = true) := by
  refine ⟨?_, ?_, ?_⟩
  · intro feed_url now e it h
    cases hp : pick_audio_enclosure e.links with
    | none => simp [podcastItem, hp] at h
    | some enc =>
      simp [podcastItem, hp] at h
      rw [← h]
      exact podcastPubdate_aware _ _ _
  · intro slug env e it h
    rcases e with ⟨eid, t, u⟩
    cases eid with
    | none => simp [channelVideoItem] at h
    | some video_id =>
      by_cases hne : video_id.isEmpty
      · simp [channelVideoItem, hne] at h
      · simp [channelVideoItem, hne] at h
        rw [← h]
        exact channelPubdate_aware _ _ _
  · intro a b ha hb
    simp [pyCompare, ha, hb]

/-- C10, witness: two concrete aware datetimes compare successfully. -/
theorem C10_pubdates_aware_witness :
    (PyDatetime.mk 3 true).aware = true
    ∧ (PyDatetime.mk 5 true).aware = true
    ∧ (pyCompare ⟨3, true⟩ ⟨5, true⟩).isSome = true :=
  ⟨rfl, rfl, C10_pubdates_aware.2.2 ⟨3, true⟩ ⟨5, true⟩ rfl rfl⟩

/-! ## Claim C4 — per-source caps -/

theorem collectPodcast_length_le (feed_url : String) (now : Int) (cap : Nat)
    (l : List PodcastEntry) (count : Nat) (h : count < cap) :
    (collectPodcast feed_url now cap l count).length ≤ cap - count := by
  induction l generalizing count with
  | nil => simp [collectPodcast]
  | cons e rest ih =>
    simp only [collectPodcast]
    cases podcastItem feed_url now e with
    | none => exact ih count h
    | some it =>
      dsimp only
      by_cases hc : count + 1 ≥ cap
      · rw [if_pos hc]
        simp only [List.length_singleton]
        omega
      · rw [if_neg hc]
        have := ih (count + 1) (by omega)
        simp only [List.length_cons]
        omega

theorem collectChannel_length_le (slug : String) (env : ChannelEnv) (cap : Nat)
    (l : List VideoEntry) (count : Nat) (h : count < cap) :
    (collectChannel slug env cap l count).1.length ≤ cap - count := by
  induction l generalizing count with
  | nil => simp [collectChannel]
  | cons e rest ih =>
    simp only [collectChannel]
    cases channelVideoItem slug env e with
    | none => exact ih count h
    | some it =>
      dsimp only
      by_cases hc : count + 1 ≥ cap
      · rw [if_pos hc]
        simp only [List.length_singleton]
        omega
      · rw [if_neg hc]
        have := ih (count + 1) (by omega)
        simp only [List.length_cons]
        omega

theorem collectChannel_length_le_input (slug : String) (env : ChannelEnv) (cap : Nat)
    (l : List VideoEntry) (count : Nat) :
    (collectChannel slug env cap l count).1.length ≤ l.length := by
  induction l generalizing count with
  | nil => simp [collectChannel]
  | cons e rest ih =>
    simp only [collectChannel]
    cases channelVideoItem slug env e with
    | none => exact Nat.le_succ_of_le (ih count)
    | some it =>
      dsimp only
      by_cases hc : count + 1 ≥ cap
      · rw [if_pos hc]
        show (1 : Nat) ≤ rest.length + 1
        omega
      · rw [if_neg hc]
        have := ih (count + 1)
        show (collectChannel slug env cap rest (count + 1)).1.length + 1 ≤ rest.length + 1
        omega

/-- C4, counterexample: with `max_items_per_source = 0` a podcast feed with
one audio entry still contributes one item, because the counter is only
checked after an item has been appended. -/
theorem C4_zero_cap_still_emits :
    (podcastItems "https://example.org/feed" 0 0 [audioEntry]).length = 1
    ∧ ¬ ((podcastItems "https://example.org/feed" 0 0 [audioEntry]).length ≤ 0) := by
  have h : (podcastItems "https://example.org/feed" 0 0 [audioEntry]).length = 1 := rfl
  exact ⟨h, by rw [h]; decide⟩

/-- C4, amended: provided `max_items_per_source ≥ 1`, each podcast feed
contributes at most `max_items_per_source` items and each channel at most
`min(max_videos, max_items_per_source)` items before the global trim (with a
zero cap a source can still contribute one item). -/
theorem C4_per_source_caps (feed_url : String) (now : Int) (cap maxVideos : Nat)
    (entries : List PodcastEntry) (slug : String) (env : ChannelEnv)
    (ventries : List VideoEntry) (hcap : 1 ≤ cap) :
    (podcastItems feed_url now cap entries).length ≤ cap
    ∧ (channelItems slug env maxVideos cap ventries).length ≤ min maxVideos cap := by
  constructor
  · have := collectPodcast_length_le feed_url now cap entries 0 (by omega)
    simpa [podcastItems] using this
  · refine le_min ?_ ?_
    · have h1 := collectChannel_length_le_input slug env cap (ventries.take maxVideos) 0
      have h2 : (ventries.take maxVideos).length ≤ maxVideos := by
        simp [List.length_take]
      exact le_trans h1 h2
    · have := collectChannel_length_le slug env cap (ventries.take maxVideos) 0 (by omega)
      simpa [channelItems] using this

/-- C4, witness for the amended theorem with cap 1 and empty sources. -/
theorem C4_per_source_caps_witness :
    1 ≤ 1
    ∧ (podcastItems "https://example.org/feed" 0 1 []).length ≤ 1
    ∧ (channelItems "chan" noFileEnv 0 1 []).length ≤ min 0 1 :=
  ⟨Nat.le_refl 1,
    (C4_per_source_caps "https://example.org/feed" 0 1 0 [] "chan" noFileEnv []
      (Nat.le_refl 1)).1,
    (C4_per_source_caps "https://example.org/feed" 0 1 0 [] "chan" noFileEnv []
      (Nat.le_refl 1)).2⟩

/-! ## Claim C3 — merge, rank, trim -/

theorem pubLE_trans (a b c : Item) (hab : pubLE a b) (hbc : pubLE b c) : pubLE a c := by
  simp only [pubLE, decide_eq_true_eq] at *
  omega

theorem pubLE_total (a b : Item) : pubLE a b || pubLE b a := by
  simp only [pubLE, Bool.or_eq_true, decide_eq_true_eq]
  omega

/-- C3: the merge stage sorts all collected items by publication instant
descending (every pair in the output, adjacent or not, is ordered) and cuts
the result to at most `max_total_items`; the sort is stable, so items with
equal instants keep their collection order. -/
theorem C3_merge_sorted_trimmed_stable (items : List Item) (maxTotal : Nat) :
    (mergeTrim items maxTotal).Pairwise
        (fun a b => b.pubdate.instant ≤ a.pubdate.instant)
    ∧ (mergeTrim items maxTotal).length ≤ maxTotal
    ∧ (∀ a b : Item, a.pubdate.instant = b.pubdate.instant →
        List.Sublist [a, b] items → List.Sublist [a, b] (items.mergeSort pubLE)) := by
  refine ⟨?_, ?_, ?_⟩
  · have hs := List.sorted_mergeSort pubLE_trans pubLE_total items
    have hs' : (items.mergeSort pubLE).Pairwise
        (fun a b => b.pubdate.instant ≤ a.pubdate.instant) :=
      hs.imp (fun h => by simpa [pubLE] using h)
    exact hs'.sublist (List.take_sublist _ _)
  · simp [mergeTrim, List.length_take]
  · intro a b heq hsub
    exact List.pair_sublist_mergeSort pubLE_trans pubLE_total
      (by simp [pubLE]; omega) hsub

/-- C3, witness: two items with equal instants stay in collection order
through the sort. -/
theorem C3_merge_sorted_trimmed_stable_witness :
    itemA.pubdate.instant = itemB.pubdate.instant
    ∧ List.Sublist [itemA, itemB] [itemA, itemB]
    ∧ List.Sublist [itemA, itemB] ([itemA, itemB].mergeSort pubLE) :=
  ⟨rfl, List.Sublist.refl _,
    (C3_merge_sorted_trimmed_stable [itemA, itemB] 2).2.2 itemA itemB rfl
      (List.Sublist.refl _)⟩

/-! ## Claim C6 — audio-enclosure selection -/

theorem pick_audio_enclosure_first (links : List Link) (l : Link)
    (h : pick_audio_enclosure links = some l) :
    is_audio_enclosure l = true
    ∧ ∃ pre post, links = pre ++ l :: post
        ∧ ∀ x ∈ pre, is_audio_enclosure x = false := by
  induction links with
  | nil => simp [pick_audio_enclosure] at h
  | cons a rest ih =>
    rw [pick_audio_enclosure] at h
    cases ha : is_audio_enclosure a with
    | true =>
      rw [List.find?_cons_of_pos _ ha] at h
      cases h
      exact ⟨ha, [], rest, rfl, by simp⟩
    | false =>
      rw [List.find?_cons_of_neg _ (by simp [ha])] at h
      obtain ⟨h1, pre, post, heq, hall⟩ := ih h
      refine ⟨h1, a :: pre, post, by simp [heq], ?_⟩
      intro x hx
      rcases List.mem_cons.mp hx with rfl | hx
      · exact ha
      · exact hall x hx

/-- C6: the audio predicate holds exactly when the lowercased declared type
has the `audio/` head or the lowercased URL ends in `.mp3`, `.m4a`, `.aac`
or `.ogg`; the selected enclosure is the first link of the entry's list
satisfying it; and an entry with no qualifying link contributes no item. -/
theorem C6_first_audio_enclosure :
    (∀ link : Link, is_audio_enclosure link = true ↔
        (pyStartsWith "audio/" (pyLower (link.ltype.getD "")) = true
          ∨ pyEndsWith ".mp3" (pyLower (link.href.getD "")) = true
          ∨ pyEndsWith ".m4a" (pyLower (link.href.getD "")) = true
          ∨ pyEndsWith ".aac" (pyLower (link.href.getD "")) = true
          ∨ pyEndsWith ".ogg" (pyLower (link.href.getD "")) = true))
    ∧ (∀ links l, pick_audio_enclosure links = some l →
        is_audio_enclosure l = true
        ∧ ∃ pre post, links = pre ++ l :: post
            ∧ ∀ x ∈ pre, is_audio_enclosure x = false)
    ∧ (∀ feed_url now e, pick_audio_enclosure e.links = none →
        podcastItem feed_url now e = none) := by
  refine ⟨?_, pick_audio_enclosure_first, ?_⟩
  · intro link
    simp [is_audio_enclosure, Bool.or_eq_true, or_assoc]
  · intro feed_url now e h
    simp [podcastItem, h]

/-- C6, witness: from a non-audio link followed by an `.mp3` link, the
second is selected, and the first is rejected by the predicate. -/
theorem C6_first_audio_enclosure_witness :
    pick_audio_enclosure
        [⟨some "https://e/x.html", some "text/html", none⟩,
         ⟨some "https://e/x.mp3", none, none⟩]
      = some ⟨some "https://e/x.mp3", none, none⟩
    ∧ (is_audio_enclosure ⟨some "https://e/x.mp3", none, none⟩ = true
        ∧ ∃ pre post,
            [(⟨some "https://e/x.html", some "text/html", none⟩ : Link),
             ⟨some "https://e/x.mp3", none, none⟩]
              = pre ++ (⟨some "https://e/x.mp3", none, none⟩ : Link) :: post
            ∧ ∀ x ∈ pre, is_audio_enclosure x = false) :=
  ⟨rfl,
    C6_first_audio_enclosure.2.1
      [⟨some "https://e/x.html", some "text/html", none⟩,
       ⟨some "https://e/x.mp3", none, none⟩]
      ⟨some "https://e/x.mp3", none, none⟩ rfl⟩

/-! ## Claim C9 — slug derivation -/

theorem mem_of_mem_stripWhile (p : Char → Bool) (l : List Char) (c : Char)
    (h : c ∈ stripWhile p l) : c ∈ l := by
  simp only [stripWhile, List.mem_reverse] at h
  have h1 : c ∈ (l.dropWhile p).reverse := List.dropWhile_subset p h
  rw [List.mem_reverse] at h1
  exact List.dropWhile_subset p h1

theorem collapseAux_chars (cs : List Char) :
    ∀ (b : Bool) (c : Char), c ∈ collapseAux b cs → isSlugChar c = true ∨ c = '-' := by
  induction cs with
  | nil => intro b c hc; simp [collapseAux] at hc
  | cons a rest ih =>
    intro b c hc
    simp only [collapseAux] at hc
    by_cases ha : isSlugChar a = true
    · rw [if_pos ha] at hc
      rcases List.mem_cons.mp hc with rfl | hc
      · exact Or.inl ha
      · exact ih false c hc
    · rw [if_neg ha] at hc
      cases b with
      | true => exact ih true c (by simpa using hc)
      | false =>
        rcases List.mem_cons.mp (by simpa using hc) with rfl | hc'
        · exact Or.inr rfl
        · exact ih true c hc'

theorem collapseAux_all_nonslug (cs : List Char)
    (h : ∀ c ∈ cs, isSlugChar c = false) :
    collapseAux true cs = []
    ∧ collapseAux false cs = (if cs.isEmpty then [] else ['-']) := by
  induction cs with
  | nil => exact ⟨rfl, rfl⟩
  | cons a rest ih =>
    have ha : isSlugChar a = false := h a (List.mem_cons_self _ _)
    have hrest : ∀ c ∈ rest, isSlugChar c = false :=
      fun c hc => h c (List.mem_cons_of_mem _ hc)
    have ihr := ih hrest
    constructor
    · simp [collapseAux, ha, ihr.1]
    · simp [collapseAux, ha, ihr.1]

theorem slugify_chars (text : String) :
    ∀ c ∈ (slugify text).data, isSlugChar c = true ∨ c = '-' := by
  intro c hc
  simp only [slugify] at hc
  split at hc
  · have hall : ∀ c ∈ "channel".data, isSlugChar c = true := by decide
    exact Or.inl (hall c hc)
  · exact collapseAux_chars _ false c
      (mem_of_mem_stripWhile _ _ c hc)

theorem slugify_ne_empty (text : String) : slugify text ≠ "" := by
  simp only [slugify]
  split
  · decide
  · intro h
    rename_i hne
    have hd : _ = ([] : List Char) := congrArg String.data h
    rw [← List.isEmpty_iff] at hd
    exact hne hd

theorem slugify_all_nonslug (text : String)
    (h : ∀ c ∈ text.data, isSlugChar c.toLower = false) :
    slugify text = "channel" := by
  have hmapped : ∀ c ∈ (stripWhile isPyWhitespace text.data).map Char.toLower,
      isSlugChar c = false := by
    intro c hc
    rcases List.mem_map.mp hc with ⟨a, ha, rfl⟩
    exact h a (mem_of_mem_stripWhile _ _ a ha)
  have hcol := (collapseAux_all_nonslug _ hmapped).2
  have hdash : stripWhile (fun x => decide (x = '-')) ['-'] = [] := rfl
  have hnil : stripWhile (fun x => decide (x = '-')) [] = [] := rfl
  simp only [slugify, collapseNonAlnum, hcol]
  cases he : (List.map Char.toLower (stripWhile isPyWhitespace text.data)).isEmpty
  · simp [he, hdash]
  · simp [he, hnil]

/-- C9, counterexample: the fallback slug is the fixed literal `channel`,
not a hash-derived token — two distinct channel URLs with no extractable
alphanumeric segment yield the identical slug. -/
theorem C9_fallback_is_constant :
    ("https://www.youtube.com/c/" : String) ≠ "https://www.youtube.com/user/"
    ∧ channelSlug "https://www.youtube.com/c/" = "channel"
    ∧ channelSlug "https://www.youtube.com/user/" = "channel" :=
  ⟨by decide, rfl, rfl⟩

/-- C9, amended: the slug is a deterministic function of the URL's last
`/`-separated segment (lowercased, with non-alphanumeric runs collapsed to
hyphens); it is never empty and uses only `[0-9a-z-]` characters, and when
the segment has no alphanumeric character at all the slug falls back to the
fixed literal `channel` (the same for every such URL) rather than to a
hash-derived token. -/
theorem C9_slug_characterization (url : String) :
    channelSlug url = slugify (lastUrlSegment url)
    ∧ channelSlug url ≠ ""
    ∧ (∀ c ∈ (channelSlug url).data, isSlugChar c = true ∨ c = '-')
    ∧ ((∀ c ∈ (lastUrlSegment url).data, isSlugChar c.toLower = false) →
        channelSlug url = "channel") :=
  ⟨rfl, slugify_ne_empty _, slugify_chars _, fun h => slugify_all_nonslug _ h⟩

/-- C9, witness: the amended theorem applied to a URL whose last segment
carries no alphanumeric character. -/
theorem C9_slug_characterization_witness :
    (∀ c ∈ (lastUrlSegment "https://www.youtube.com/++").data,
        isSlugChar c.toLower = false)
    ∧ channelSlug "https://www.youtube.com/++" = "channel" :=
  ⟨by decide, (C9_slug_characterization "https://www.youtube.com/++").2.2.2 (by decide)⟩

end MergeFeeds
